import Mathlib

/-!
Shallow embedding of `src/ds_toolbox.py` (breast-cancer-hackathon).

Conventions of the embedding:
* binary labels are `Bool` (`false` = class 0, `true` = class 1), label and
  prediction vectors are `List Bool`;
* real-valued results are `ℚ`; a division that Python/numpy would evaluate to
  `NaN` (0/0 on numpy scalars) is `none` in an `Option ℚ`;
* a Python function that can raise is embedded with an `Option`/`Except`
  result, `none`/`.error` meaning the call raises;
* sklearn conventions that the source relies on are embedded faithfully:
  `confusion_matrix` infers its label set as the sorted union of the classes
  observed in `y_true` and `y_pred` (so the matrix is 1x1 when only one class
  occurs, and `ravel()` then yields 1 cell, making a 4-way unpacking raise),
  and `precision_score` / `recall_score` / `f1_score` return 0.0 (with a
  warning, not an exception) for an ill-defined component (`zero_division`
  default).  In `ℚ` the convention `x / 0 = 0` coincides with that
  `zero_division=0` behaviour, which the definitions below exploit.
-/

/-- Pairs of (truth, prediction) with truth `a` and prediction `b`, counted over
the positionally aligned part of the two vectors (sklearn requires equal
lengths; callers of this helper check that). One cell of the confusion matrix. -/
def countPairs (y p : List Bool) (a b : Bool) : ℕ :=
  (y.zip p).countP fun q => q.1 == a && q.2 == b

/-- The label set sklearn's `confusion_matrix` infers: the sorted union of the
classes observed in `y_true` and `y_pred`. -/
def observedClasses (y p : List Bool) : List Bool :=
  (if false ∈ y ∨ false ∈ p then [false] else []) ++
  (if true ∈ y ∨ true ∈ p then [true] else [])

/-- `confusion_matrix(y, p).ravel()`: the row-major flattening of the
`k x k` count matrix over the observed classes. -/
def confusionRavel (y p : List Bool) : List ℕ :=
  ((observedClasses y p).map fun a =>
    (observedClasses y p).map fun b => countPairs y p a b).flatten

/-- Division of two cell counts as numpy evaluates `tn / (tn + fp)` on int64
scalars: a float, `NaN` (here `none`) when the denominator is 0. -/
def safeDiv (a b : ℕ) : Option ℚ :=
  if b = 0 then none else some ((a : ℚ) / (b : ℚ))

/-- `compute_metrics(y_test, y_prediction)` from `ds_toolbox.py`:
`tn, fp, fn, tp = confusion_matrix(y_test, y_prediction).ravel()` followed by
the three divisions.  The outer `Option` is `none` when the call raises
(mismatched lengths, or a ravel that does not have exactly 4 cells); each inner
`Option ℚ` is `none` when the corresponding division is 0/0 (NaN). -/
def compute_metrics (y_test y_prediction : List Bool) :
    Option (Option ℚ × Option ℚ × Option ℚ) :=
  if y_test.length = y_prediction.length then
    match confusionRavel y_test y_prediction with
    | [tn, fp, fn, tp] =>
        some (safeDiv (tp + tn) (tp + tn + fp + fn),
              safeDiv tp (tp + fn),
              safeDiv tn (tn + fp))
    | _ => none
  else none

/-! ## `create_balanced_dataset`: the resampling factory -/

/-- The four imblearn sampler classes dispatched on in `create_balanced_dataset`. -/
inductive SamplerKind where
  | randomOverSampler
  | smote
  | adasyn
  | randomUnderSampler
deriving DecidableEq

/-- A constructed imblearn sampler: its class together with the `random_state`
argument it was constructed with (`none` models `random_state=None`, i.e.
seeding from the ambient randomness source). -/
structure Sampler where
  kind : SamplerKind
  random_state : Option ℕ
deriving DecidableEq

/-- The dispatch of `create_balanced_dataset`, statement by statement.  In the
source the local `sampler` starts unbound (`none` here); the first statement is
an `if` on `'RandomOverSampler'`, and the second statement is a separate
`if`/`elif`/`elif` chain on `'SMOTE'`/`'ADASYN'`/`'RandomUnderSampler'` whose
fall-through leaves `sampler` as the first statement left it.  Every branch
passes the literal `random_state=42`. -/
def selectSampler (sampler_name : String) : Option Sampler :=
  let s₁ : Option Sampler :=
    if sampler_name = "RandomOverSampler" then some ⟨.randomOverSampler, some 42⟩
    else none
  if sampler_name = "SMOTE" then some ⟨.smote, some 42⟩
  else if sampler_name = "ADASYN" then some ⟨.adasyn, some 42⟩
  else if sampler_name = "RandomUnderSampler" then some ⟨.randomUnderSampler, some 42⟩
  else s₁

/-- Modelled from the spec: the dispatch as the spec describes it should behave
("an explicit enumerated-variant selector … with an exhaustive match"), i.e. a
single `if`/`elif` chain in which exactly one branch executes per recognized
name.  Used only to compare the source's dispatch against it. -/
def selectSampler_spec (sampler_name : String) : Option Sampler :=
  if sampler_name = "RandomOverSampler" then some ⟨.randomOverSampler, some 42⟩
  else if sampler_name = "SMOTE" then some ⟨.smote, some 42⟩
  else if sampler_name = "ADASYN" then some ⟨.adasyn, some 42⟩
  else if sampler_name = "RandomUnderSampler" then some ⟨.randomUnderSampler, some 42⟩
  else none

/-- A feature matrix (rows of rational features). -/
abbrev Features := List (List ℚ)

/-- The seed an imblearn sampler actually samples with: its `random_state` when
set, otherwise the ambient randomness the process happens to have (`entropy`). -/
def effectiveSeed (random_state : Option ℕ) (entropy : ℕ) : ℕ :=
  match random_state with
  | some s => s
  | none => entropy

/-- `create_balanced_dataset(sampler_name, X, y)` from `ds_toolbox.py`.
`fit_sample` embeds the imblearn resampling itself (external library code):
imblearn samplers are deterministic functions of the sampler class, the
effective seed and the data, which is exactly the signature given here.
`entropy` is the ambient randomness a `random_state=None` construction would
consume; the source passes the literal 42 everywhere, so it is never consulted.
When no dispatch branch assigned `sampler`, the call of `sampler.fit_sample`
raises `UnboundLocalError` (`.error` here). -/
def create_balanced_dataset
    (fit_sample : SamplerKind → ℕ → Features → List Bool → Features × List Bool)
    (entropy : ℕ) (sampler_name : String) (X : Features) (y : List Bool) :
    Except String (Features × List Bool) :=
  match selectSampler sampler_name with
  | none => Except.error "UnboundLocalError: local variable 'sampler' referenced before assignment"
  | some s => Except.ok (fit_sample s.kind (effectiveSeed s.random_state entropy) X y)

/-! ## sklearn scores used by `classifiers_metric_report` -/

/-- Count of one class in a label vector (a class's support when taken on
`y_true`, its predicted count when taken on `y_pred`). -/
def class_count (l : List Bool) (c : Bool) : ℕ := l.count c

/-- Per-class recall, `zero_division=0` (in `ℚ`, `x / 0 = 0` gives exactly
sklearn's 0.0-with-warning behaviour for an absent class). -/
def recall_c (y p : List Bool) (c : Bool) : ℚ :=
  (countPairs y p c c : ℚ) / (class_count y c : ℚ)

/-- Per-class precision, `zero_division=0`. -/
def precision_c (y p : List Bool) (c : Bool) : ℚ :=
  (countPairs y p c c : ℚ) / (class_count p c : ℚ)

/-- Per-class F1, the harmonic mean of precision and recall (0 when both are 0,
matching sklearn's `zero_division` handling, since `0 / 0 = 0` in `ℚ`). -/
def f1_c (y p : List Bool) (c : Bool) : ℚ :=
  2 * precision_c y p c * recall_c y p c / (precision_c y p c + recall_c y p c)

/-- `precision_score(y_test, y_pred)` with sklearn defaults: binary average on
`pos_label=1`, i.e. the positive class's precision. -/
def precision_score (y p : List Bool) : ℚ := precision_c y p true

/-- `recall_score(y_test, y_pred, average='weighted')`: the support-weighted
mean of the per-class recalls. -/
def recall_score_weighted (y p : List Bool) : ℚ :=
  ((class_count y false : ℚ) * recall_c y p false +
   (class_count y true : ℚ) * recall_c y p true) /
  ((class_count y false : ℚ) + (class_count y true : ℚ))

/-- `f1_score(y_test, y_pred, average='weighted')`: the support-weighted mean
of the per-class F1 scores. -/
def f1_score_weighted (y p : List Bool) : ℚ :=
  ((class_count y false : ℚ) * f1_c y p false +
   (class_count y true : ℚ) * f1_c y p true) /
  ((class_count y false : ℚ) + (class_count y true : ℚ))

/-! ## `classifiers_metric_report` / `classifier_metric_report` -/

/-- A fitted model handle, duck-typed in the source: `predict` is always used;
`decision_function` is an optional capability (`none` means the object lacks
the attribute, so accessing it raises `AttributeError`). -/
structure FittedModel where
  predict : Features → List Bool
  decision_function : Option (Features → List ℚ)

/-- One row of the report: the four columns `['Precision', 'Recall',
'F1-Score', 'Specificity']`.  Specificity is computed in the source by hand as
`tn / (tn + fp)` on numpy ints, so it can be `NaN` (`none`). -/
structure MetricsRow where
  precision : ℚ
  recallWeighted : ℚ
  f1Weighted : ℚ
  specificity : Option ℚ

/-- The report's column labels, as the source lists them. -/
def report_columns : List String := ["Precision", "Recall", "F1-Score", "Specificity"]

/-- The row `pd.DataFrame(0.0, ...)` initializes every entry to. -/
def zeroRow : MetricsRow := ⟨0, 0, 0, some 0⟩

/-- The body of one iteration of the loop in `classifiers_metric_report`:
precision, weighted recall, weighted F1, then `tn, fp, fn, tp =
confusion_matrix(y_test, y_pred).ravel()` and `specificity = tn / (tn + fp)`.
`none` when the iteration raises (length mismatch, or a ravel without exactly
4 cells). -/
def metricsRow (y p : List Bool) : Option MetricsRow :=
  if y.length = p.length then
    match confusionRavel y p with
    | [tn, fp, _fn, _tp] =>
        some ⟨precision_score y p, recall_score_weighted y p,
              f1_score_weighted y p, safeDiv tn (tn + fp)⟩
    | _ => none
  else none

/-- The loop of `classifiers_metric_report` over the models: each model's
predictions on `X_test` are scored against `y_test`; the first raising
iteration aborts the call. -/
def computeRows (y : List Bool) (X : Features) : List FittedModel → Option (List MetricsRow)
  | [] => some []
  | m :: ms =>
    match metricsRow y (m.predict X), computeRows y X ms with
    | some r, some rs => some (r :: rs)
    | _, _ => none

/-- `classifiers_metric_report(models, labels, X_test, y_test)`: a DataFrame of
0.0 indexed by `labels` with `report_columns` as columns, whose row `i` is
overwritten with model `i`'s metrics.  With more models than labels the loop's
`iloc[i, _]` raises (`none`); with fewer, the surplus label rows keep their
0.0 fill.  The result is the index-to-row association list in insertion
order. -/
def classifiers_metric_report (models : List FittedModel) (labels : List String)
    (X_test : Features) (y_test : List Bool) : Option (List (String × MetricsRow)) :=
  if models.length ≤ labels.length then
    match computeRows y_test X_test models with
    | some rows =>
        some (labels.zip (rows ++ List.replicate (labels.length - models.length) zeroRow))
    | none => none
  else none

/-- `classifier_metric_report(model, model_name, X_test, y_test)`: fills a
`len(y_test) x 1` score array from `model.decision_function(X_test)` (raising
`AttributeError` when the capability is missing, and a broadcast `ValueError`
when the score vector's length differs from `len(y_test)`), discards it, and
delegates to `classifiers_metric_report` on the singleton lists. -/
def classifier_metric_report (model : FittedModel) (model_name : String)
    (X_test : Features) (y_test : List Bool) : Option (List (String × MetricsRow)) :=
  match model.decision_function with
  | none => none
  | some df =>
      if (df X_test).length = y_test.length then
        classifiers_metric_report [model] [model_name] X_test y_test
      else none

/-! ## `plot_recall_curve` and the module namespace -/

/-- Every name bound at module level in `ds_toolbox.py`: the import statements
of lines 1-16, the constant `CRAYONS`, and the module's own function
definitions.  `signature` (from `inspect`) is not among them, and it is not a
Python builtin either. -/
def module_bound_names : List String :=
  ["itertools", "Counter", "Tuple", "plt", "np", "pd", "sns",
   "SMOTE", "RandomOverSampler", "ADASYN", "RandomUnderSampler",
   "average_precision_score", "confusion_matrix", "f1_score", "recall_score",
   "precision_recall_curve", "roc_auc_score", "roc_curve", "precision_score",
   "CRAYONS",
   "compute_metrics", "create_balanced_dataset", "plot_confusion_matrix",
   "plot_confusion_matrix_with_labels", "plot_roc_curve", "plot_roc_curves",
   "plot_recall_curve", "plot_coefficients", "plot_histograms",
   "plot_conditional_distributions", "plot_feature_importance",
   "classifiers_metric_report", "classifier_metric_report",
   "plot_roc_curves_with_classifiers", "plot_roc_curves_with_classifier"]

/-- `precision_recall_curve(y_test, y_score)` as far as its error behaviour is
observable in `plot_recall_curve`: sklearn first runs `check_consistent_length`
(ValueError on mismatched lengths), then `_binary_clf_curve` rejects a ground
truth whose observed class set is not a subset of a binary one — with `Bool`
labels that triggers exactly on empty input (ValueError).  Otherwise the call
succeeds; the curve values themselves are never reached by `plot_recall_curve`
(the `NameError` below pre-empts their use), so the success value is `()`. -/
def precision_recall_curve (y_test : List Bool) (y_score : List ℚ) : Except String Unit :=
  if y_test.length = y_score.length then
    if y_test = [] then
      Except.error "ValueError: Data is not binary and pos_label is not specified"
    else Except.ok ()
  else Except.error "ValueError: Found input variables with inconsistent numbers of samples"

/-- `plot_recall_curve(y_test, y_score)` up to its failure behaviour: first the
`precision_recall_curve(y_test, y_score)` call (which raises on inconsistent or
empty inputs), then the line
`'step' in signature(plt.fill_between).parameters` looks up the name
`signature`, which resolves only if some enclosing scope binds it; no local is
named `signature`, so resolution falls to the module globals and then the
builtins, raising `NameError` when absent.  Only then would the plotting
complete (`.ok`). -/
def plot_recall_curve (y_test : List Bool) (y_score : List ℚ) : Except String Unit :=
  match precision_recall_curve y_test y_score with
  | Except.error e => Except.error e
  | Except.ok _ =>
      if "signature" ∈ module_bound_names then Except.ok ()
      else Except.error "NameError: name 'signature' is not defined"

/-! ## `plot_feature_importance` -/

/-- `np.max` on a nonempty array (numpy raises on an empty one; the theorems
below assume nonemptiness, the `[]` case is an arbitrary total-function fill). -/
def np_max : List ℚ → ℚ
  | [] => 0
  | x :: xs => xs.foldl max x

/-- The values `plot_feature_importance` plots, before sorting/truncation:
`feature_importance = model.feature_importances_ * 100` followed by
`feature_importance = 100 * (feature_importance / np.max(feature_importance))`. -/
def plot_feature_importance_values (importances : List ℚ) : List ℚ :=
  let fi := importances.map fun v => v * 100
  fi.map fun v => 100 * (v / np_max fi)

/-- The property claimed of report entries: every numeric cell of a row lies in
the unit interval, and the specificity cell is an actual number (not NaN). -/
def rowInUnit (r : MetricsRow) : Prop :=
  0 ≤ r.precision ∧ r.precision ≤ 1 ∧
  0 ≤ r.recallWeighted ∧ r.recallWeighted ≤ 1 ∧
  0 ≤ r.f1Weighted ∧ r.f1Weighted ≤ 1 ∧
  ∃ s, r.specificity = some s ∧ 0 ≤ s ∧ s ≤ 1

/-! ## Counting lemmas -/

lemma countP_zip_fst_le (y p : List Bool) (a : Bool) :
    (y.zip p).countP (fun q => q.1 == a) ≤ y.count a := by
  induction y generalizing p with
  | nil => simp
  | cons x xs ih =>
    cases p with
    | nil => simp
    | cons z zs =>
      simp only [List.zip_cons_cons, List.countP_cons, List.count_cons]
      have h := ih zs
      split_ifs with hxa <;> simp_all

lemma countP_zip_fst_eq (y p : List Bool) (a : Bool) (h : y.length = p.length) :
    (y.zip p).countP (fun q => q.1 == a) = y.count a := by
  induction y generalizing p with
  | nil => simp
  | cons x xs ih =>
    cases p with
    | nil => simp at h
    | cons z zs =>
      simp only [List.zip_cons_cons, List.countP_cons, List.count_cons]
      have h' : xs.length = zs.length := by simpa using h
      rw [ih zs h']

lemma countP_zip_snd_le (y p : List Bool) (b : Bool) :
    (y.zip p).countP (fun q => q.2 == b) ≤ p.count b := by
  induction y generalizing p with
  | nil => simp
  | cons x xs ih =>
    cases p with
    | nil => simp
    | cons z zs =>
      simp only [List.zip_cons_cons, List.countP_cons, List.count_cons]
      have h := ih zs
      split_ifs with hzb <;> simp_all

lemma countPairs_le_fst (y p : List Bool) (a b : Bool) :
    countPairs y p a b ≤ (y.zip p).countP (fun q => q.1 == a) := by
  unfold countPairs
  exact List.countP_mono_left (by intro q _ hq; exact (Bool.and_elim_left hq))

lemma countPairs_le_snd (y p : List Bool) (a b : Bool) :
    countPairs y p a b ≤ (y.zip p).countP (fun q => q.2 == b) := by
  unfold countPairs
  exact List.countP_mono_left (by intro q _ hq; exact (Bool.and_elim_right hq))

lemma countPairs_split (y p : List Bool) (a : Bool) :
    countPairs y p a false + countPairs y p a true
      = (y.zip p).countP (fun q => q.1 == a) := by
  unfold countPairs
  induction y.zip p with
  | nil => simp
  | cons q l ih =>
    obtain ⟨u, v⟩ := q
    simp only [List.countP_cons]
    cases u <;> cases v <;> cases a <;> simp_all <;> omega

lemma countPairs_le_count_left (y p : List Bool) (a b : Bool) :
    countPairs y p a b ≤ y.count a :=
  le_trans (countPairs_le_fst y p a b) (countP_zip_fst_le y p a)

lemma countPairs_le_count_right (y p : List Bool) (a b : Bool) :
    countPairs y p a b ≤ p.count b :=
  le_trans (countPairs_le_snd y p a b) (countP_zip_snd_le y p b)

/-! ## Unit-interval division lemmas -/

lemma div_unit_interval {a b : ℚ} (h0 : 0 ≤ a) (h1 : a ≤ b) :
    0 ≤ a / b ∧ a / b ≤ 1 := by
  rcases eq_or_lt_of_le (le_trans h0 h1) with hb | hb
  · have ha : a = 0 := le_antisymm (hb ▸ h1) h0
    simp [ha]
  · exact ⟨div_nonneg h0 hb.le, (div_le_one hb).mpr h1⟩

lemma f1_formula_unit {q r : ℚ} (hq0 : 0 ≤ q) (hq1 : q ≤ 1) (hr0 : 0 ≤ r) (hr1 : r ≤ 1) :
    0 ≤ 2 * q * r / (q + r) ∧ 2 * q * r / (q + r) ≤ 1 :=
  div_unit_interval (by positivity) (by nlinarith)

lemma weighted_mean_unit {w₀ w₁ v₀ v₁ : ℚ} (hw₀ : 0 ≤ w₀) (hw₁ : 0 ≤ w₁)
    (h₀0 : 0 ≤ v₀) (h₀1 : v₀ ≤ 1) (h₁0 : 0 ≤ v₁) (h₁1 : v₁ ≤ 1) :
    0 ≤ (w₀ * v₀ + w₁ * v₁) / (w₀ + w₁) ∧ (w₀ * v₀ + w₁ * v₁) / (w₀ + w₁) ≤ 1 :=
  div_unit_interval (by positivity) (by nlinarith)

/-! ## Confusion-matrix shape lemmas -/

lemma confusionRavel_of_mem {y p : List Bool} (hf : false ∈ y ∨ false ∈ p)
    (ht : true ∈ y ∨ true ∈ p) :
    confusionRavel y p = [countPairs y p false false, countPairs y p false true,
                         countPairs y p true false, countPairs y p true true] := by
  simp [confusionRavel, observedClasses, hf, ht]

lemma confusionRavel_cells {y p : List Bool} {tn fp fn tp : ℕ}
    (hr : confusionRavel y p = [tn, fp, fn, tp]) :
    tn = countPairs y p false false ∧ fp = countPairs y p false true ∧
    fn = countPairs y p true false ∧ tp = countPairs y p true true := by
  by_cases hf : false ∈ y ∨ false ∈ p <;> by_cases ht : true ∈ y ∨ true ∈ p <;>
    simp [confusionRavel, observedClasses, hf, ht] at hr
  exact ⟨hr.1.symm, hr.2.1.symm, hr.2.2.1.symm, hr.2.2.2.symm⟩

/-! ## Claim C1 -/

/-- C1: for every aligned pair of binary label and prediction vectors whose
confusion matrix is 2x2 with cells `(tn, fp, fn, tp)` (row-major ravel),
`compute_metrics` returns the triple (accuracy, sensitivity, specificity) with
accuracy = (tp+tn)/(tp+tn+fp+fn), sensitivity = tp/(tp+fn), specificity =
tn/(tn+fp), the cells being the pairwise truth/prediction counts; in
particular, for labels `[0,0,1,1]` and predictions `[0,1,1,1]` the cells are
`(tn=1, fp=1, fn=0, tp=2)` and the result is `(0.75, 1.0, 0.5)`. -/
theorem claim_C1 (y p : List Bool) (tn fp fn tp : ℕ)
    (hlen : y.length = p.length)
    (hr : confusionRavel y p = [tn, fp, fn, tp]) :
    compute_metrics y p
      = some (safeDiv (tp + tn) (tp + tn + fp + fn), safeDiv tp (tp + fn),
              safeDiv tn (tn + fp))
    ∧ tn = countPairs y p false false ∧ fp = countPairs y p false true
    ∧ fn = countPairs y p true false ∧ tp = countPairs y p true true
    ∧ confusionRavel [false, false, true, true] [false, true, true, true] = [1, 1, 0, 2]
    ∧ compute_metrics [false, false, true, true] [false, true, true, true]
        = some (some (3/4), some 1, some (1/2)) := by
  obtain ⟨h1, h2, h3, h4⟩ := confusionRavel_cells hr
  refine ⟨?_, h1, h2, h3, h4, by decide, ?_⟩
  · unfold compute_metrics
    rw [if_pos hlen, hr]
  · simp [compute_metrics, confusionRavel, observedClasses, countPairs, safeDiv]

/-- Witness for C1 at the spec's own example. -/
theorem claim_C1_witness :
    compute_metrics [false, false, true, true] [false, true, true, true]
      = some (safeDiv (2 + 1) (2 + 1 + 1 + 0), safeDiv 2 (2 + 0), safeDiv 1 (1 + 1)) :=
  (claim_C1 [false, false, true, true] [false, true, true, true] 1 1 0 2
    rfl (by decide)).1

/-! ## Claim C5 -/

/-- C5: whenever no confusion-matrix cell sum appearing in a denominator is
zero (`tp+fn > 0`, `tn+fp > 0`, `N > 0`), the three values `compute_metrics`
returns are defined and lie in the closed interval [0, 1]. -/
theorem claim_C5 (y p : List Bool) (tn fp fn tp : ℕ)
    (hlen : y.length = p.length)
    (hr : confusionRavel y p = [tn, fp, fn, tp])
    (hsens : 0 < tp + fn) (hspec : 0 < tn + fp) (htot : 0 < tp + tn + fp + fn) :
    ∃ a s c, compute_metrics y p = some (some a, some s, some c) ∧
      0 ≤ a ∧ a ≤ 1 ∧ 0 ≤ s ∧ s ≤ 1 ∧ 0 ≤ c ∧ c ≤ 1 := by
  have hm : compute_metrics y p
      = some (safeDiv (tp + tn) (tp + tn + fp + fn), safeDiv tp (tp + fn),
              safeDiv tn (tn + fp)) := by
    unfold compute_metrics
    rw [if_pos hlen, hr]
  have ha := div_unit_interval (a := ((tp + tn : ℕ) : ℚ)) (b := ((tp + tn + fp + fn : ℕ) : ℚ))
    (by positivity) (by exact_mod_cast (by omega : tp + tn ≤ tp + tn + fp + fn))
  have hs := div_unit_interval (a := ((tp : ℕ) : ℚ)) (b := ((tp + fn : ℕ) : ℚ))
    (by positivity) (by exact_mod_cast Nat.le_add_right _ _)
  have hc := div_unit_interval (a := ((tn : ℕ) : ℚ)) (b := ((tn + fp : ℕ) : ℚ))
    (by positivity) (by exact_mod_cast Nat.le_add_right _ _)
  refine ⟨_, _, _, ?_, ha.1, ha.2, hs.1, hs.2, hc.1, hc.2⟩
  rw [hm]
  simp [safeDiv, Nat.pos_iff_ne_zero.mp hsens, Nat.pos_iff_ne_zero.mp hspec,
        Nat.pos_iff_ne_zero.mp htot]

/-- Witness for C5 at the spec's example input. -/
theorem claim_C5_witness :
    ∃ a s c, compute_metrics [false, false, true, true] [false, true, true, true]
        = some (some a, some s, some c) ∧
      0 ≤ a ∧ a ≤ 1 ∧ 0 ≤ s ∧ s ≤ 1 ∧ 0 ≤ c ∧ c ≤ 1 :=
  claim_C5 [false, false, true, true] [false, true, true, true] 1 1 0 2
    rfl (by decide) (by decide) (by decide) (by decide)

/-! ## Claim C4 -/

/-- C4 counterexample: with ground truth `[1,1]` and predictions `[1,1]` one
class is entirely absent from the ground-truth labels, yet `compute_metrics`
does not produce an undefined/NaN metric component: sklearn infers a 1x1
confusion matrix, its `ravel()` has a single cell, and the 4-way unpacking
raises before any division is reached (the call returns no triple at all). -/
theorem claim_C4_counterexample :
    compute_metrics [true, true] [true, true] = none := by decide

/-- C4 (amended): for every aligned, nonempty label/prediction pair in which
one class is absent from the ground-truth labels but present among the
predictions (so the inferred confusion matrix is still 2x2), `compute_metrics`
reaches the divisions with no input check and returns a triple in which the
sensitivity or the specificity component is undefined (NaN). -/
theorem claim_C4 (y p : List Bool)
    (hlen : y.length = p.length) (hne : y ≠ [])
    (habs : (false ∉ y ∧ false ∈ p) ∨ (true ∉ y ∧ true ∈ p)) :
    ∃ t, compute_metrics y p = some t ∧ (t.2.1 = none ∨ t.2.2 = none) := by
  rcases habs with ⟨hfy, hfp⟩ | ⟨hty, htp⟩
  · have hty : true ∈ y := by
      obtain ⟨b, hb⟩ := List.exists_mem_of_ne_nil y hne
      cases b
      · exact absurd hb hfy
      · exact hb
    have hr := confusionRavel_of_mem (y := y) (p := p) (Or.inr hfp) (Or.inl hty)
    have hzero : countPairs y p false false + countPairs y p false true = 0 := by
      have h := countPairs_split y p false
      have h' := countP_zip_fst_eq y p false hlen
      have hc : y.count false = 0 := List.count_eq_zero.mpr hfy
      omega
    have hm : compute_metrics y p
        = some (safeDiv (countPairs y p true true + countPairs y p false false)
                  (countPairs y p true true + countPairs y p false false +
                   countPairs y p false true + countPairs y p true false),
                safeDiv (countPairs y p true true)
                  (countPairs y p true true + countPairs y p true false),
                safeDiv (countPairs y p false false)
                  (countPairs y p false false + countPairs y p false true)) := by
      unfold compute_metrics
      rw [if_pos hlen, hr]
    exact ⟨_, hm, Or.inr (by simp [safeDiv, hzero])⟩
  · have hfy : false ∈ y := by
      obtain ⟨b, hb⟩ := List.exists_mem_of_ne_nil y hne
      cases b
      · exact hb
      · exact absurd hb hty
    have hr := confusionRavel_of_mem (y := y) (p := p) (Or.inl hfy) (Or.inr htp)
    have hzero : countPairs y p true true + countPairs y p true false = 0 := by
      have h := countPairs_split y p true
      have h' := countP_zip_fst_eq y p true hlen
      have hc : y.count true = 0 := List.count_eq_zero.mpr hty
      omega
    have hm : compute_metrics y p
        = some (safeDiv (countPairs y p true true + countPairs y p false false)
                  (countPairs y p true true + countPairs y p false false +
                   countPairs y p false true + countPairs y p true false),
                safeDiv (countPairs y p true true)
                  (countPairs y p true true + countPairs y p true false),
                safeDiv (countPairs y p false false)
                  (countPairs y p false false + countPairs y p false true)) := by
      unfold compute_metrics
      rw [if_pos hlen, hr]
    exact ⟨_, hm, Or.inl (by simp [safeDiv, hzero])⟩

/-- Witness for C4 (amended): ground truth `[1]`, prediction `[0]`. -/
theorem claim_C4_witness :
    ∃ t, compute_metrics [true] [false] = some t ∧ (t.2.1 = none ∨ t.2.2 = none) :=
  claim_C4 [true] [false] rfl (by decide) (Or.inl ⟨by decide, by decide⟩)

/-! ## Claims C2, C3, C7 -/

lemma selectSampler_eq_spec (sampler_name : String) :
    selectSampler sampler_name = selectSampler_spec sampler_name := by
  by_cases h1 : sampler_name = "RandomOverSampler"
  · subst h1; rfl
  · by_cases h2 : sampler_name = "SMOTE"
    · subst h2; rfl
    · by_cases h3 : sampler_name = "ADASYN"
      · subst h3; rfl
      · by_cases h4 : sampler_name = "RandomUnderSampler"
        · subst h4; rfl
        · simp [selectSampler, selectSampler_spec, h1, h2, h3, h4]

/-- C2: for every unrecognized sampler name (anything other than the four
dispatch keys), `create_balanced_dataset` fails with the unbound-variable
error — no branch assigned `sampler` — instead of silently returning the
input unsampled. -/
theorem claim_C2
    (fit_sample : SamplerKind → ℕ → Features → List Bool → Features × List Bool)
    (entropy : ℕ) (sampler_name : String) (X : Features) (y : List Bool)
    (h : sampler_name ∉ ["RandomOverSampler", "SMOTE", "ADASYN", "RandomUnderSampler"]) :
    create_balanced_dataset fit_sample entropy sampler_name X y
      = Except.error "UnboundLocalError: local variable 'sampler' referenced before assignment" := by
  simp only [List.mem_cons, List.not_mem_nil, or_false, not_or] at h
  obtain ⟨h1, h2, h3, h4⟩ := h
  simp [create_balanced_dataset, selectSampler, h1, h2, h3, h4]

/-- Witness for C2 at the unrecognized name "NearMiss". -/
theorem claim_C2_witness :
    create_balanced_dataset (fun _ _ X y => (X, y)) 0 "NearMiss" [] []
      = Except.error "UnboundLocalError: local variable 'sampler' referenced before assignment" :=
  claim_C2 (fun _ _ X y => (X, y)) 0 "NearMiss" [] [] (by decide)

/-- C3 counterexample: there is no input on which the separately-tested
`'SMOTE'` branch overrides a `'RandomOverSampler'` selection — no string equals
both keys, so the dispatch never selects a sampler different from the one
named: it coincides everywhere with the exhaustive one-branch-per-name
selector, and `'RandomOverSampler'` in particular selects `RandomOverSampler`. -/
theorem claim_C3_counterexample :
    (¬ ∃ sampler_name : String, selectSampler sampler_name ≠ selectSampler_spec sampler_name)
    ∧ selectSampler "RandomOverSampler" = some ⟨.randomOverSampler, some 42⟩ :=
  ⟨fun ⟨n, hn⟩ => hn (selectSampler_eq_spec n), rfl⟩

/-- C3 (amended): the `if`/`if` idiosyncrasy is benign — because no
`sampler_name` satisfies both equality tests, the source's dispatch selects
exactly the sampler named, agreeing on every input with the exhaustive
`elif`-chain dispatch in which exactly one branch executes per recognized
name. -/
theorem claim_C3 (sampler_name : String) :
    selectSampler sampler_name = selectSampler_spec sampler_name :=
  selectSampler_eq_spec sampler_name

/-- C7: `create_balanced_dataset` is deterministic for every recognized
sampler name: the selected sampler carries the literal seed 42, so the result
is independent of the ambient randomness (`entropy`) — two invocations on the
same arguments under different ambient randomness return the identical
resampled pair. -/
theorem claim_C7
    (fit_sample : SamplerKind → ℕ → Features → List Bool → Features × List Bool)
    (e₁ e₂ : ℕ) (sampler_name : String) (X : Features) (y : List Bool)
    (h : sampler_name ∈ ["RandomOverSampler", "SMOTE", "ADASYN", "RandomUnderSampler"]) :
    ∃ s, selectSampler sampler_name = some s ∧ s.random_state = some 42 ∧
    ∃ out, create_balanced_dataset fit_sample e₁ sampler_name X y = Except.ok out ∧
           create_balanced_dataset fit_sample e₂ sampler_name X y = Except.ok out := by
  simp only [List.mem_cons, List.not_mem_nil, or_false] at h
  rcases h with h | h | h | h <;> subst h <;>
    exact ⟨_, rfl, rfl, _, rfl, rfl⟩

/-- Witness for C7: the SMOTE strategy under two different ambient seeds. -/
theorem claim_C7_witness :
    ∃ s, selectSampler "SMOTE" = some s ∧ s.random_state = some 42 ∧
    ∃ out, create_balanced_dataset (fun _ seed X y => (X.map fun r => (seed : ℚ) :: r, y))
             0 "SMOTE" [[1]] [true] = Except.ok out ∧
           create_balanced_dataset (fun _ seed X y => (X.map fun r => (seed : ℚ) :: r, y))
             1 "SMOTE" [[1]] [true] = Except.ok out :=
  claim_C7 (fun _ seed X y => (X.map fun r => (seed : ℚ) :: r, y)) 0 1 "SMOTE" [[1]] [true]
    (by decide)

/-! ## Claim C9 -/

/-- C9 counterexample: at `y_test=[1]`, `y_score=[0.5, 0.3]` the program does
not fail with an unbound-name error: the `precision_recall_curve` call on line
171 raises `ValueError` (inconsistent sample counts) before the `signature`
lookup on line 175 is ever executed, refuting the claim's unconditional
quantification over all inputs. -/
theorem claim_C9_counterexample :
    plot_recall_curve [true] [1/2, 3/10]
      = Except.error "ValueError: Found input variables with inconsistent numbers of samples"
    ∧ "ValueError: Found input variables with inconsistent numbers of samples"
      ≠ "NameError: name 'signature' is not defined" :=
  ⟨rfl, by decide⟩

/-- C9 (amended): on every aligned, nonempty input — exactly the inputs on
which the preceding `precision_recall_curve` call succeeds — `plot_recall_curve`
fails with a `NameError` before completing the plot: the then unconditionally
executed lookup of `signature` finds no binding, since the module's imports
(lines 1-16) never bind it and it is not a builtin.  (On mismatched-length or
empty inputs the `precision_recall_curve` call raises `ValueError` first.) -/
theorem claim_C9 (y_test : List Bool) (y_score : List ℚ)
    (hlen : y_test.length = y_score.length) (hne : y_test ≠ []) :
    plot_recall_curve y_test y_score
      = Except.error "NameError: name 'signature' is not defined"
    ∧ "signature" ∉ module_bound_names := by
  have hpr : precision_recall_curve y_test y_score = Except.ok () := by
    unfold precision_recall_curve
    rw [if_pos hlen, if_neg hne]
  constructor
  · unfold plot_recall_curve
    rw [hpr]
    rfl
  · decide

/-- Witness for C9 (amended) on an aligned, nonempty input. -/
theorem claim_C9_witness :
    plot_recall_curve [true, false] [1/2, 3/10]
      = Except.error "NameError: name 'signature' is not defined"
    ∧ "signature" ∉ module_bound_names :=
  claim_C9 [true, false] [1/2, 3/10] rfl (by decide)

/-! ## Claim C10 -/

lemma foldl_max_mul_left {c : ℚ} (hc : 0 ≤ c) :
    ∀ (xs : List ℚ) (a : ℚ),
      (xs.map fun v => c * v).foldl max (c * a) = c * xs.foldl max a := by
  intro xs
  induction xs with
  | nil => intro a; rfl
  | cons x l ih =>
    intro a
    simp only [List.map_cons, List.foldl_cons]
    rw [← mul_max_of_nonneg a x hc]
    exact ih (max a x)

lemma np_max_mul_left {c : ℚ} (hc : 0 ≤ c) (l : List ℚ) :
    np_max (l.map fun v => c * v) = c * np_max l := by
  cases l with
  | nil => simp [np_max]
  | cons x xs => exact foldl_max_mul_left hc xs x

lemma plot_feature_importance_values_eq (importances : List ℚ) :
    plot_feature_importance_values importances
      = importances.map fun v => 100 * (v / np_max importances) := by
  have hmap : (importances.map fun v => v * 100) = importances.map fun v => (100 : ℚ) * v := by
    simp [mul_comm]
  simp only [plot_feature_importance_values]
  rw [hmap, np_max_mul_left (by norm_num : (0 : ℚ) ≤ 100), List.map_map]
  refine List.map_congr_left ?_
  intro v _
  simp only [Function.comp_apply]
  rw [mul_div_mul_left v (np_max importances) (by norm_num : (100 : ℚ) ≠ 0)]

/-- C10: for every nonempty importance vector with positive maximum, the values
plotted by `plot_feature_importance` are `100 * (importance / max importance)`;
the largest plotted value is exactly 100, the initial multiplication by 100 has
no effect on the result, and the plotted values are invariant under positive
scalar rescaling of the raw importances. -/
theorem claim_C10 (importances : List ℚ) (_hne : importances ≠ [])
    (hpos : 0 < np_max importances) :
    plot_feature_importance_values importances
      = importances.map (fun v => 100 * (v / np_max importances))
    ∧ np_max (plot_feature_importance_values importances) = 100
    ∧ ∀ c : ℚ, 0 < c →
        plot_feature_importance_values (importances.map fun v => c * v)
          = plot_feature_importance_values importances := by
  have hM : np_max importances ≠ 0 := ne_of_gt hpos
  refine ⟨plot_feature_importance_values_eq importances, ?_, ?_⟩
  · rw [plot_feature_importance_values_eq]
    have hmap : (importances.map fun v => 100 * (v / np_max importances))
        = importances.map fun v => (100 / np_max importances) * v := by
      refine List.map_congr_left ?_
      intro v _
      ring
    rw [hmap, np_max_mul_left (div_nonneg (by norm_num) hpos.le)]
    exact div_mul_cancel₀ 100 hM
  · intro c hc
    rw [plot_feature_importance_values_eq, plot_feature_importance_values_eq,
        np_max_mul_left hc.le, List.map_map]
    refine List.map_congr_left ?_
    intro v _
    simp only [Function.comp_apply]
    rw [mul_div_mul_left v (np_max importances) (ne_of_gt hc)]

/-- Witness for C10 on the importance vector `[1, 4, 2]`. -/
theorem claim_C10_witness :
    plot_feature_importance_values [1, 4, 2]
      = [1, 4, 2].map (fun v => 100 * (v / np_max [1, 4, 2]))
    ∧ np_max (plot_feature_importance_values [1, 4, 2]) = 100
    ∧ ∀ c : ℚ, 0 < c →
        plot_feature_importance_values ([1, 4, 2].map fun v => c * v)
          = plot_feature_importance_values [1, 4, 2] :=
  claim_C10 [1, 4, 2] (by decide) (by norm_num [np_max])

/-! ## Unit-interval facts for the report entries -/

lemma recall_c_unit (y p : List Bool) (c : Bool) :
    0 ≤ recall_c y p c ∧ recall_c y p c ≤ 1 := by
  have h : countPairs y p c c ≤ class_count y c := countPairs_le_count_left y p c c
  exact div_unit_interval (by positivity) (by exact_mod_cast h)

lemma precision_c_unit (y p : List Bool) (c : Bool) :
    0 ≤ precision_c y p c ∧ precision_c y p c ≤ 1 := by
  have h : countPairs y p c c ≤ class_count p c := countPairs_le_count_right y p c c
  exact div_unit_interval (by positivity) (by exact_mod_cast h)

lemma f1_c_unit (y p : List Bool) (c : Bool) :
    0 ≤ f1_c y p c ∧ f1_c y p c ≤ 1 := by
  obtain ⟨hp0, hp1⟩ := precision_c_unit y p c
  obtain ⟨hr0, hr1⟩ := recall_c_unit y p c
  exact f1_formula_unit hp0 hp1 hr0 hr1

lemma recall_score_weighted_unit (y p : List Bool) :
    0 ≤ recall_score_weighted y p ∧ recall_score_weighted y p ≤ 1 := by
  obtain ⟨h00, h01⟩ := recall_c_unit y p false
  obtain ⟨h10, h11⟩ := recall_c_unit y p true
  unfold recall_score_weighted
  exact weighted_mean_unit (Nat.cast_nonneg _) (Nat.cast_nonneg _) h00 h01 h10 h11

lemma f1_score_weighted_unit (y p : List Bool) :
    0 ≤ f1_score_weighted y p ∧ f1_score_weighted y p ≤ 1 := by
  obtain ⟨h00, h01⟩ := f1_c_unit y p false
  obtain ⟨h10, h11⟩ := f1_c_unit y p true
  unfold f1_score_weighted
  exact weighted_mean_unit (Nat.cast_nonneg _) (Nat.cast_nonneg _) h00 h01 h10 h11

lemma metricsRow_ok (y p : List Bool) (hlen : y.length = p.length)
    (hf : false ∈ y) (ht : true ∈ y) :
    ∃ r, metricsRow y p = some r ∧ rowInUnit r := by
  have hr := confusionRavel_of_mem (y := y) (p := p) (Or.inl hf) (Or.inl ht)
  have hden : countPairs y p false false + countPairs y p false true = y.count false := by
    rw [countPairs_split y p false, countP_zip_fst_eq y p false hlen]
  have hne0 : countPairs y p false false + countPairs y p false true ≠ 0 := by
    rw [hden]
    exact fun h0 => (List.count_eq_zero.mp h0) hf
  refine ⟨⟨precision_score y p, recall_score_weighted y p, f1_score_weighted y p,
          safeDiv (countPairs y p false false)
            (countPairs y p false false + countPairs y p false true)⟩, ?_, ?_⟩
  · unfold metricsRow
    rw [if_pos hlen, hr]
  · obtain ⟨hp0, hp1⟩ := precision_c_unit y p true
    obtain ⟨hw0, hw1⟩ := recall_score_weighted_unit y p
    obtain ⟨hg0, hg1⟩ := f1_score_weighted_unit y p
    have hle : countPairs y p false false
        ≤ countPairs y p false false + countPairs y p false true := Nat.le_add_right _ _
    have hspec := div_unit_interval
      (a := ((countPairs y p false false : ℕ) : ℚ))
      (b := ((countPairs y p false false + countPairs y p false true : ℕ) : ℚ))
      (by positivity) (by exact_mod_cast hle)
    refine ⟨hp0, hp1, hw0, hw1, hg0, hg1,
      ((countPairs y p false false : ℕ) : ℚ)
        / ((countPairs y p false false + countPairs y p false true : ℕ) : ℚ), ?_, hspec.1, hspec.2⟩
    unfold safeDiv
    rw [if_neg hne0]

lemma computeRows_ok (y : List Bool) (X : Features) (models : List FittedModel)
    (hf : false ∈ y) (ht : true ∈ y)
    (hp : ∀ m ∈ models, (m.predict X).length = y.length) :
    ∃ rows, computeRows y X models = some rows ∧ rows.length = models.length ∧
      ∀ r ∈ rows, rowInUnit r := by
  induction models with
  | nil => exact ⟨[], rfl, rfl, by simp⟩
  | cons m ms ih =>
    obtain ⟨rows, hrows, hrl, hunit⟩ := ih (fun m' hm' => hp m' (List.mem_cons_of_mem m hm'))
    obtain ⟨r, hr, hru⟩ := metricsRow_ok y (m.predict X) (hp m (List.mem_cons_self m ms)).symm hf ht
    refine ⟨r :: rows, ?_, by simp [hrl], ?_⟩
    · simp only [computeRows, hr, hrows]
    · intro r' hr'
      rcases List.mem_cons.mp hr' with h | h
      · subst h; exact hru
      · exact hunit r' h

/-! ## Claim C6 -/

/-- C6 counterexample: with ground truth `[1,1]` and one model predicting
`[0,1]`, `classifiers_metric_report` does return a one-row report, but its
Specificity entry is `tn / (tn + fp) = 0/0`, i.e. NaN (`none`) — not a value
in [0, 1] — because class 0 is absent from the ground truth. -/
theorem claim_C6_counterexample :
    ∃ report, classifiers_metric_report [⟨fun _ => [false, true], none⟩] ["clf"] [] [true, true]
        = some report ∧ ∃ pr ∈ report, pr.2.specificity = none := by
  have hconf : confusionRavel [true, true] [false, true] = [0, 0, 1, 1] := by decide
  have h : classifiers_metric_report [⟨fun _ => [false, true], none⟩] ["clf"] [] [true, true]
      = some [("clf", ⟨precision_score [true, true] [false, true],
                       recall_score_weighted [true, true] [false, true],
                       f1_score_weighted [true, true] [false, true], none⟩)] := by
    simp [classifiers_metric_report, computeRows, metricsRow, hconf, safeDiv]
  refine ⟨_, h, ("clf", ⟨precision_score [true, true] [false, true],
      recall_score_weighted [true, true] [false, true],
      f1_score_weighted [true, true] [false, true], none⟩), ?_, rfl⟩
  simp

/-- C6 (amended): for every list of fitted models with a matching list of
labels, whenever both classes occur in the ground-truth labels and each model
predicts one label per test sample, `classifiers_metric_report` returns a
report with exactly one row per model, rows keyed by the given labels in their
given order, columns exactly Precision/Recall/F1-Score/Specificity, and every
entry defined and in [0, 1].  (Without the both-classes condition the
Specificity entry can be NaN, or the call can raise on a 1x1 confusion
matrix.) -/
theorem claim_C6 (models : List FittedModel) (labels : List String)
    (X_test : Features) (y_test : List Bool)
    (hlen : labels.length = models.length)
    (hf : false ∈ y_test) (ht : true ∈ y_test)
    (hp : ∀ m ∈ models, (m.predict X_test).length = y_test.length) :
    report_columns = ["Precision", "Recall", "F1-Score", "Specificity"] ∧
    ∃ report, classifiers_metric_report models labels X_test y_test = some report ∧
      report.map Prod.fst = labels ∧
      report.length = models.length ∧
      ∀ pr ∈ report, rowInUnit pr.2 := by
  obtain ⟨rows, hrows, hrl, hunit⟩ := computeRows_ok y_test X_test models hf ht hp
  have hle : models.length ≤ labels.length := hlen.symm.le
  have hsub : labels.length - models.length = 0 := by omega
  refine ⟨rfl, labels.zip rows, ?_, ?_, ?_, ?_⟩
  · unfold classifiers_metric_report
    rw [if_pos hle, hrows, hsub]
    simp
  · exact List.map_fst_zip labels rows (by omega)
  · rw [List.length_zip]
    omega
  · rintro ⟨lab, r⟩ hpr
    exact hunit r (List.of_mem_zip hpr).2

/-- Witness for C6 (amended): one model, one label, ground truth `[0,1]`. -/
theorem claim_C6_witness :
    report_columns = ["Precision", "Recall", "F1-Score", "Specificity"] ∧
    ∃ report, classifiers_metric_report [⟨fun _ => [false, true], none⟩] ["clf"] [] [false, true]
        = some report ∧
      report.map Prod.fst = ["clf"] ∧
      report.length = 1 ∧
      ∀ pr ∈ report, rowInUnit pr.2 :=
  claim_C6 [⟨fun _ => [false, true], none⟩] ["clf"] [] [false, true]
    rfl (by decide) (by decide)
    (by intro m hm; rw [List.mem_singleton] at hm; subst hm; rfl)

/-! ## Claim C8 -/

/-- C8: for a model carrying the `decision_function` capability (returning one
score per test sample), `classifier_metric_report` returns exactly the report
of `classifiers_metric_report` on the singleton lists; the computed scores are
discarded and never influence the result (the report is invariant under
changing or removing the `decision_function` component); yet the call fails
(`AttributeError`, `none`) whenever the model lacks `decision_function`, even
though the report does not need it. -/
theorem claim_C8 (model : FittedModel) (model_name : String)
    (X_test : Features) (y_test : List Bool) :
    (∀ df, model.decision_function = some df → (df X_test).length = y_test.length →
        classifier_metric_report model model_name X_test y_test
          = classifiers_metric_report [model] [model_name] X_test y_test)
    ∧ (model.decision_function = none →
        classifier_metric_report model model_name X_test y_test = none)
    ∧ (∀ d d' : Option (Features → List ℚ),
        classifiers_metric_report [⟨model.predict, d⟩] [model_name] X_test y_test
          = classifiers_metric_report [⟨model.predict, d'⟩] [model_name] X_test y_test) := by
  refine ⟨?_, ?_, ?_⟩
  · intro df hdf hl
    simp only [classifier_metric_report, hdf]
    rw [if_pos hl]
  · intro h
    simp only [classifier_metric_report, h]
  · intro d d'
    rfl

/-- Witness for C8: a concrete model with a `decision_function`. -/
theorem claim_C8_witness :
    classifier_metric_report ⟨fun _ => [false, true], some fun _ => [0, 0]⟩ "clf" [] [false, true]
      = classifiers_metric_report [⟨fun _ => [false, true], some fun _ => [0, 0]⟩] ["clf"]
          [] [false, true] :=
  (claim_C8 ⟨fun _ => [false, true], some fun _ => [0, 0]⟩ "clf" [] [false, true]).1
    (fun _ => [0, 0]) rfl rfl
